import Mathlib

/-!
Verification of the litecord gateway/HTTP core against its specification.

Shallow embedding of the relevant parts of the source:
  - src/dicexual/snowflake.py                (snowflake generation and decoding)
  - src/litecord/gateway/connection.py       (resume handling, shard checks)
  - src/litecord/gateway/state.py            (event cache lookup)
  - src/litecord/api/channels.py             (message POST, bulk delete, pins)
  - src/litecord/objects.py                  (user/guild dispatch, serialization)
  - src/litecord/utils.py                    (strip_user_data, _err)
-/

namespace Litecord

/-! ### Snowflakes (src/dicexual/snowflake.py)

    EPOCH = 1420081200 (seconds).  _snowflake(timestamp) formats
    int(timestamp - EPOCH) as a zero-padded 38-char binary string, the
    per-process counter as a zero-padded 11-char binary string, concatenates,
    drops the first two characters and reads the rest as binary.
    snowflake_time formats the snowflake as a zero-padded 49-char binary
    string and reads the first 37 characters as the seconds offset. -/

def EPOCH : ℕ := 1420081200

/-- Number of binary digits of n (0 for n = 0), computed with enough fuel to
    be kernel-reducible. -/
def bitLenAux : ℕ → ℕ → ℕ
  | 0, _ => 0
  | fuel + 1, n => if n = 0 then 0 else bitLenAux fuel (n / 2) + 1

def bitLen (n : ℕ) : ℕ := bitLenAux n n

lemma bitLenAux_le_iff :
    ∀ fuel n k : ℕ, n ≤ fuel → (bitLenAux fuel n ≤ k ↔ n < 2 ^ k) := by
  intro fuel
  induction fuel with
  | zero =>
    intro n k hn
    have hn0 : n = 0 := Nat.le_zero.mp hn
    subst hn0
    have hpos : 0 < 2 ^ k := Nat.pos_pow_of_pos k (by norm_num)
    simp [bitLenAux, hpos]
  | succ fuel ih =>
    intro n k hn
    by_cases h0 : n = 0
    · subst h0
      have hpos : 0 < 2 ^ k := Nat.pos_pow_of_pos k (by norm_num)
      simp [bitLenAux, hpos]
    · have hstep : bitLenAux (fuel + 1) n = bitLenAux fuel (n / 2) + 1 := by
        simp [bitLenAux, h0]
      rw [hstep]
      cases k with
      | zero =>
        constructor
        · intro h
          omega
        · intro h
          have : n < 1 := by simpa using h
          omega
      | succ j =>
        have hhalf : n / 2 ≤ fuel := by omega
        have hiff := ih (n / 2) j hhalf
        have hpow : 2 ^ (j + 1) = 2 ^ j * 2 := by ring
        constructor
        · intro h
          have h2 : n / 2 < 2 ^ j := hiff.mp (by omega)
          have h3 : n < 2 ^ j * 2 := (Nat.div_lt_iff_lt_mul (by norm_num)).mp h2
          omega
        · intro h
          have h2 : n < 2 ^ j * 2 := by omega
          have h3 : n / 2 < 2 ^ j := (Nat.div_lt_iff_lt_mul (by norm_num)).mpr h2
          have h4 : bitLenAux fuel (n / 2) ≤ j := hiff.mpr h3
          omega

lemma bitLen_le_iff {n k : ℕ} : bitLen n ≤ k ↔ n < 2 ^ k :=
  bitLenAux_le_iff n n k (Nat.le_refl n)

lemma lt_two_pow_bitLen (n : ℕ) : n < 2 ^ bitLen n :=
  bitLen_le_iff.mp (Nat.le_refl _)

lemma bitLen_mono {m n : ℕ} (h : m ≤ n) : bitLen m ≤ bitLen n :=
  bitLen_le_iff.mpr (lt_of_le_of_lt h (lt_two_pow_bitLen n))

/-- Length of the string produced by Python format code 0{w}b applied to n:
    the binary digit count of n (at least 1, also for n = 0), zero-padded up
    to width w. -/
def pyBinLen (w n : ℕ) : ℕ := max w (max 1 (bitLen n))

/-- Core of _snowflake / _snowflake_raw: build the concatenated binary
    string for offset sinceEpoch and counter value ctr, drop the first two
    characters, read back as a number.  Dropping k leading characters of a
    binary string is taking the value mod 2 to the remaining length. -/
def snowflakeGen (sinceEpoch ctr : ℕ) : ℕ :=
  (sinceEpoch * 2 ^ pyBinLen 11 ctr + ctr) %
    2 ^ (pyBinLen 38 sinceEpoch + pyBinLen 11 ctr - 2)

/-- _snowflake(timestamp) with the module counter at ctr
    (int() truncation of the float timestamp is taken as given). -/
def pySnowflake (timestamp ctr : ℕ) : ℕ := snowflakeGen (timestamp - EPOCH) ctr

/-- snowflake_time: pad the snowflake to at least 49 binary characters,
    keep the first 37 characters (a right shift by length - 37) and add the
    epoch. -/
def snowflake_time (s : ℕ) : ℕ :=
  EPOCH + s / 2 ^ (pyBinLen 49 s - 37)

lemma pyBinLen_of_lt {w n : ℕ} (h1 : 1 ≤ w) (h : n < 2 ^ w) : pyBinLen w n = w := by
  have hsz : bitLen n ≤ w := bitLen_le_iff.mpr h
  unfold pyBinLen
  omega

lemma ctr_lt_pow_pyBinLen (c : ℕ) : c < 2 ^ pyBinLen 11 c := by
  have h1 : c < 2 ^ bitLen c := lt_two_pow_bitLen c
  have h2 : bitLen c ≤ pyBinLen 11 c := by unfold pyBinLen; omega
  exact lt_of_lt_of_le h1 (Nat.pow_le_pow_right (by norm_num) h2)

/-- For offsets below 2 ^ 36 the mod in snowflakeGen does nothing: the two
    dropped characters are leading zeroes. -/
lemma snowflakeGen_eq_of_lt {E C : ℕ} (hE : E < 2 ^ 36) :
    snowflakeGen E C = E * 2 ^ pyBinLen 11 C + C := by
  have hlen : pyBinLen 38 E = 38 := by
    refine pyBinLen_of_lt (by norm_num) (lt_of_lt_of_le hE ?_)
    exact Nat.pow_le_pow_right (by norm_num) (by norm_num)
  have hC : C < 2 ^ pyBinLen 11 C := ctr_lt_pow_pyBinLen C
  have hlc : 11 ≤ pyBinLen 11 C := le_max_left _ _
  have hbound : E * 2 ^ pyBinLen 11 C + C < 2 ^ (38 + pyBinLen 11 C - 2) := by
    have h1 : E * 2 ^ pyBinLen 11 C + C < (E + 1) * 2 ^ pyBinLen 11 C := by
      have := Nat.mul_le_mul_right (2 ^ pyBinLen 11 C) (Nat.le_refl E)
      nlinarith [hC]
    have h2 : (E + 1) * 2 ^ pyBinLen 11 C ≤ 2 ^ 36 * 2 ^ pyBinLen 11 C :=
      Nat.mul_le_mul_right _ (by omega)
    have h3 : 2 ^ 36 * 2 ^ pyBinLen 11 C = 2 ^ (38 + pyBinLen 11 C - 2) := by
      rw [← pow_add]
      congr 1
      omega
    omega
  unfold snowflakeGen
  rw [hlen]
  exact Nat.mod_eq_of_lt hbound

/-- Strict growth of generated snowflakes: a later snowflake (counter strictly
    larger, offset at least as large, offsets in the representable range) is
    strictly larger as an integer. -/
lemma snowflakeGen_lt {E1 E2 C1 C2 : ℕ} (hpos : 1 ≤ E1) (hE : E1 ≤ E2)
    (hE2 : E2 < 2 ^ 36) (hC : C1 < C2) :
    snowflakeGen E1 C1 < snowflakeGen E2 C2 := by
  have hE1 : E1 < 2 ^ 36 := lt_of_le_of_lt hE hE2
  rw [snowflakeGen_eq_of_lt hE1, snowflakeGen_eq_of_lt hE2]
  set L1 := pyBinLen 11 C1 with hL1
  set L2 := pyBinLen 11 C2 with hL2
  have hL : L1 ≤ L2 := by
    have := bitLen_mono (Nat.le_of_lt hC)
    unfold pyBinLen at hL1 hL2
    omega
  have hC1 : C1 < 2 ^ L1 := ctr_lt_pow_pyBinLen C1
  rcases Nat.eq_or_lt_of_le hL with heq | hlt
  · rw [← heq]
    have := Nat.mul_le_mul_right (2 ^ L1) hE
    omega
  · have h1 : E1 * 2 ^ L1 + C1 < (E1 + 1) * 2 ^ L1 := by nlinarith [hC1]
    have h2 : (E1 + 1) * 2 ^ L1 ≤ 2 * E1 * 2 ^ L1 :=
      Nat.mul_le_mul_right _ (by omega)
    have h3 : 2 * E1 * 2 ^ L1 = E1 * 2 ^ (L1 + 1) := by ring
    have hp : 2 ^ (L1 + 1) ≤ 2 ^ L2 := Nat.pow_le_pow_right (by norm_num) hlt
    have h4 : E1 * 2 ^ (L1 + 1) ≤ E2 * 2 ^ L2 :=
      Nat.mul_le_mul (by omega) hp
    omega

/-- What snowflake_time actually recovers: half the encoded seconds offset.
    The string kept is 37 of the 38 characters that hold the offset, so the
    offset comes back shifted right by one. -/
lemma snowflake_time_gen {E C : ℕ} (hE : E < 2 ^ 36) (hC : C < 2 ^ 11) :
    snowflake_time (snowflakeGen E C) = EPOCH + E / 2 := by
  have hlc : pyBinLen 11 C = 11 := pyBinLen_of_lt (by norm_num) hC
  have hval : snowflakeGen E C = E * 2 ^ 11 + C := by
    rw [snowflakeGen_eq_of_lt hE, hlc]
  have hvlt : E * 2 ^ 11 + C < 2 ^ 47 := by
    have : E * 2 ^ 11 + C < (E + 1) * 2 ^ 11 := by nlinarith
    have h2 : (E + 1) * 2 ^ 11 ≤ 2 ^ 36 * 2 ^ 11 := Nat.mul_le_mul_right _ (by omega)
    have h3 : (2 : ℕ) ^ 36 * 2 ^ 11 = 2 ^ 47 := by norm_num
    omega
  have hlen : pyBinLen 49 (snowflakeGen E C) = 49 := by
    refine pyBinLen_of_lt (by norm_num) ?_
    rw [hval]
    exact lt_of_lt_of_le hvlt (Nat.pow_le_pow_right (by norm_num) (by norm_num))
  unfold snowflake_time
  rw [hlen, hval]
  have h11 : (2 : ℕ) ^ 11 = 2048 := by norm_num
  have h12 : (2 : ℕ) ^ (49 - 37) = 4096 := by norm_num
  rw [h12]
  rw [h11] at *
  omega

/-! ### Resume handling (src/litecord/gateway/connection.py, resume_handler
    and _resume; src/litecord/gateway/state.py, ConnectionState.__getitem__)

    resume_handler invalidates non-resumably (OP 9 with resumable = False,
    raising InvalidateSession) when replay_seq > sent_seq or when
    len(range(replay_seq, sent_seq + 1)) > RESUME_MAX_EVENTS; otherwise it
    calls _resume over that range.  ConnectionState.__getitem__ indexes the
    events deque positionally and turns IndexError into None; _resume then
    hits an AttributeError on None.get, caught by the blanket handler which
    invalidates resumably. -/

def RESUME_MAX_EVENTS : ℕ := 60

/-- Python range(a, b) as a list of integers. -/
def intRange (a b : ℤ) : List ℤ :=
  (List.range (b - a).toNat).map (fun i : ℕ => a + (i : ℤ))

lemma length_intRange (a b : ℤ) : (intRange a b).length = (b - a).toNat := by
  unfold intRange
  rw [List.length_map, List.length_range]

lemma mem_intRange {a b i : ℤ} : i ∈ intRange a b ↔ a ≤ i ∧ i < b := by
  unfold intRange
  constructor
  · intro h
    rcases List.mem_map.mp h with ⟨k, hk, rfl⟩
    have := List.mem_range.mp hk
    omega
  · intro ⟨h1, h2⟩
    refine List.mem_map.mpr ⟨(i - a).toNat, List.mem_range.mpr (by omega), by omega⟩

/-- Positional list lookup (Python indexing for non-negative indices). -/
def listNth {α : Type} : List α → ℕ → Option α
  | [], _ => none
  | a :: _, 0 => some a
  | _ :: l, n + 1 => listNth l n

lemma listNth_eq_none {α : Type} :
    ∀ (l : List α) (n : ℕ), l.length ≤ n → listNth l n = none := by
  intro l
  induction l with
  | nil => intro n _; cases n <;> rfl
  | cons a t ih =>
    intro n hn
    cases n with
    | zero => simp at hn
    | succ m => exact ih m (by simpa using hn)

lemma listNth_isSome {α : Type} :
    ∀ (l : List α) (n : ℕ), n < l.length → ∃ x, listNth l n = some x := by
  intro l
  induction l with
  | nil => intro n hn; simp at hn
  | cons a t ih =>
    intro n hn
    cases n with
    | zero => exact ⟨a, rfl⟩
    | succ m => exact ih m (by simpa using hn)

/-- Python indexing on a deque/list: non-negative indices from the front,
    negative indices from the back, anything out of range raises IndexError
    (returned as none here, exactly what __getitem__ does after catching
    IndexError). -/
def pyListGet {α : Type} (l : List α) (i : ℤ) : Option α :=
  if 0 ≤ i then listNth l i.toNat
  else if i.natAbs ≤ l.length then listNth l (l.length - i.natAbs)
  else none

/-- A cached gateway payload as stored by ConnectionState.add: the event
    name t, the sequence number s it was sent with, and its data d
    (abstracted to an integer identifier). -/
structure GwPayload where
  t : String
  s : ℤ
  d : ℤ
deriving DecidableEq, Repr

/-- Result of the _resume replay loop: either an exception path ending in
    invalidate(True) (resumable invalidation; the payloads already written
    to the socket are recorded), or a completed replay followed by an
    optional PRESENCES_REPLACE dispatch carrying the collected
    PRESENCE_UPDATE data. -/
inductive ReplayResult where
  | invalidatedResumable (sent : List GwPayload)
  | done (sent : List GwPayload) (presencesReplace : Option (List ℤ))
deriving DecidableEq, Repr

/-- The final `if presences:` dispatch of _resume. -/
def mkPresencesTail (pres : List ℤ) : Option (List ℤ) :=
  if pres = [] then none else some pres

/-- The loop body of _resume: look each position up in the events deque;
    a missing position yields None whose .get call raises, caught by the
    blanket except which invalidates resumably; PRESENCE_UPDATE payloads are
    collected, everything else is sent immediately. -/
def replayLoop (events : List GwPayload) :
    List ℤ → List GwPayload → List ℤ → ReplayResult
  | [], sent, pres => .done sent (mkPresencesTail pres)
  | seq :: rest, sent, pres =>
    match pyListGet events seq with
    | none => .invalidatedResumable sent
    | some evt =>
      if evt.t = "PRESENCE_UPDATE" then replayLoop events rest sent (pres ++ [evt.d])
      else replayLoop events rest (sent ++ [evt]) pres

/-- Outcome of resume_handler after session and token lookup succeeded. -/
inductive ResumeOutcome where
  | invalidNonResumable
  | replay (r : ReplayResult)
deriving DecidableEq, Repr

/-- The sequence-window validation of resume_handler followed by _resume:
    replay_seq > sent_seq invalidates non-resumably, a range longer than
    RESUME_MAX_EVENTS invalidates non-resumably, otherwise the cached
    events are replayed over range(replay_seq, sent_seq + 1). -/
def resume_handler (sentSeq : ℤ) (events : List GwPayload) (replaySeq : ℤ) :
    ResumeOutcome :=
  if replaySeq > sentSeq then .invalidNonResumable
  else if (intRange replaySeq (sentSeq + 1)).length > RESUME_MAX_EVENTS then
    .invalidNonResumable
  else .replay (replayLoop events (intRange replaySeq (sentSeq + 1)) [] [])

/-- The window check in isolation: does resume_handler reach the replay
    phase for this request. -/
def resumeWindowOk (sentSeq replaySeq : ℤ) : Bool :=
  decide (¬ replaySeq > sentSeq) &&
  decide (¬ (intRange replaySeq (sentSeq + 1)).length > RESUME_MAX_EVENTS)

lemma resumeWindowOk_iff {sentSeq replaySeq : ℤ} :
    resumeWindowOk sentSeq replaySeq = true ↔
      sentSeq - 59 ≤ replaySeq ∧ replaySeq ≤ sentSeq := by
  unfold resumeWindowOk
  rw [Bool.and_eq_true, decide_eq_true_iff, decide_eq_true_iff, length_intRange]
  unfold RESUME_MAX_EVENTS
  omega

lemma resume_handler_eq_replay {sentSeq replaySeq : ℤ}
    (events : List GwPayload) (h : resumeWindowOk sentSeq replaySeq = true) :
    resume_handler sentSeq events replaySeq =
      .replay (replayLoop events (intRange replaySeq (sentSeq + 1)) [] []) := by
  unfold resumeWindowOk at h
  rw [Bool.and_eq_true, decide_eq_true_iff, decide_eq_true_iff] at h
  unfold resume_handler
  rw [if_neg h.1, if_neg h.2]

lemma resume_handler_eq_invalid {sentSeq replaySeq : ℤ}
    (events : List GwPayload) (h : resumeWindowOk sentSeq replaySeq = false) :
    resume_handler sentSeq events replaySeq = .invalidNonResumable := by
  unfold resume_handler
  split_ifs with h1 h2
  · rfl
  · rfl
  · exfalso
    simp [resumeWindowOk, h1, h2] at h

/-- A payload that is not a PRESENCE_UPDATE, hence sent as-is by the replay
    loop. -/
def nonPresence (p : GwPayload) : Bool := decide (p.t ≠ "PRESENCE_UPDATE")

/-- The data field collected by the replay loop from a PRESENCE_UPDATE. -/
def presenceData (p : GwPayload) : Option ℤ :=
  if p.t = "PRESENCE_UPDATE" then some p.d else none

/-- The payloads _resume reads from the deque: every position of
    range(a, b) that is inside the deque, in range order. -/
def resumeSlice (events : List GwPayload) (a b : ℤ) : List GwPayload :=
  (intRange a b).filterMap (pyListGet events)

lemma replayLoop_done (events : List GwPayload) :
    ∀ (seqs : List ℤ) (sent : List GwPayload) (pres : List ℤ),
      (∀ i ∈ seqs, ∃ p, pyListGet events i = some p) →
      replayLoop events seqs sent pres =
        .done (sent ++ (seqs.filterMap (pyListGet events)).filter nonPresence)
              (mkPresencesTail
                (pres ++ (seqs.filterMap (pyListGet events)).filterMap presenceData)) := by
  intro seqs
  induction seqs with
  | nil =>
    intro sent pres _
    simp [replayLoop]
  | cons i rest ih =>
    intro sent pres hall
    obtain ⟨p, hp⟩ := hall i (List.mem_cons_self i rest)
    have hrest : ∀ j ∈ rest, ∃ q, pyListGet events j = some q :=
      fun j hj => hall j (List.mem_cons_of_mem i hj)
    by_cases hpres : p.t = "PRESENCE_UPDATE"
    · have : replayLoop events (i :: rest) sent pres =
          replayLoop events rest sent (pres ++ [p.d]) := by
        simp [replayLoop, hp, hpres]
      rw [this, ih sent (pres ++ [p.d]) hrest]
      simp [List.filterMap_cons, hp, nonPresence, presenceData, hpres]
    · have : replayLoop events (i :: rest) sent pres =
          replayLoop events rest (sent ++ [p]) pres := by
        simp [replayLoop, hp, hpres]
      rw [this, ih (sent ++ [p]) pres hrest]
      simp [List.filterMap_cons, hp, nonPresence, presenceData, hpres]

lemma replayLoop_abort (events : List GwPayload) :
    ∀ (seqs : List ℤ) (sent : List GwPayload) (pres : List ℤ),
      (∃ i ∈ seqs, pyListGet events i = none) →
      ∃ s, replayLoop events seqs sent pres = .invalidatedResumable s := by
  intro seqs
  induction seqs with
  | nil =>
    intro sent pres hex
    simp at hex
  | cons i rest ih =>
    intro sent pres hex
    cases hp : pyListGet events i with
    | none => exact ⟨sent, by simp [replayLoop, hp]⟩
    | some p =>
      have hrest : ∃ j ∈ rest, pyListGet events j = none := by
        rcases hex with ⟨j, hj, hnone⟩
        rcases List.mem_cons.mp hj with rfl | hjr
        · rw [hp] at hnone
          cases hnone
        · exact ⟨j, hjr, hnone⟩
      by_cases hpres : p.t = "PRESENCE_UPDATE"
      · have : replayLoop events (i :: rest) sent pres =
            replayLoop events rest sent (pres ++ [p.d]) := by
          simp [replayLoop, hp, hpres]
        rw [this]
        exact ih sent (pres ++ [p.d]) hrest
      · have : replayLoop events (i :: rest) sent pres =
            replayLoop events rest (sent ++ [p]) pres := by
          simp [replayLoop, hp, hpres]
        rw [this]
        exact ih (sent ++ [p]) pres hrest

/-- C1 counterexample.  The claim says a RESUME with seq == sent_seq - 60 is
    within the window and succeeds.  On the code, for a session with
    sent_seq = 100, a RESUME with seq = 40 = 100 - 60 gives
    len(range(40, 101)) = 61 > RESUME_MAX_EVENTS and the session is
    invalidated non-resumably. -/
theorem c1_resume_window_counterexample :
    resume_handler 100 [] 40 = ResumeOutcome.invalidNonResumable ∧
    (100 : ℤ) - 60 = 40 := by
  constructor
  · decide
  · norm_num

/-- C1 amended.  RESUME escapes non-resumable invalidation exactly when
    sent_seq - 59 ≤ seq ≤ sent_seq: the code rejects when seq > sent_seq or
    when len(range(seq, sent_seq + 1)) = sent_seq - seq + 1 exceeds 60, so
    the boundary sits at sent_seq - 59, not sent_seq - 60. -/
theorem c1_resume_window_amended :
    ∀ (sentSeq replaySeq : ℤ) (events : List GwPayload),
      resume_handler sentSeq events replaySeq ≠ ResumeOutcome.invalidNonResumable ↔
        sentSeq - 59 ≤ replaySeq ∧ replaySeq ≤ sentSeq := by
  intro sentSeq replaySeq events
  cases hw : resumeWindowOk sentSeq replaySeq with
  | true =>
    rw [resume_handler_eq_replay events hw]
    simp only [ne_eq]
    constructor
    · intro _
      exact resumeWindowOk_iff.mp hw
    · intro _ h
      cases h
  | false =>
    rw [resume_handler_eq_invalid events hw]
    constructor
    · intro h
      exact absurd rfl h
    · intro hcond
      have := resumeWindowOk_iff.mpr hcond
      rw [hw] at this
      cases this

/-- C1 amended witness: at sent_seq = 100, seq = 41 = sent_seq - 59 the
    resume proceeds past the window check. -/
theorem c1_resume_window_amended_witness :
    resume_handler 100 [] 41 ≠ ResumeOutcome.invalidNonResumable :=
  (c1_resume_window_amended 100 41 []).mpr (by constructor <;> norm_num)

/-- C2 counterexample.  The claim says a RESUME with seq == sent_seq replays
    zero events and succeeds.  After a READY (which advances sent_seq to 1
    but is not cached) the deque is empty; a RESUME with seq = 1 = sent_seq
    looks up deque position 1, __getitem__ turns the IndexError into None,
    the replay loop raises on None.get and the session is invalidated
    resumably instead of succeeding. -/
theorem c2_resume_replay_counterexample :
    resume_handler 1 [] 1 =
      ResumeOutcome.replay (ReplayResult.invalidatedResumable []) := by
  decide

/-- C2 amended.  On a RESUME that passes the window check with seq ≥ 0, the
    replay loop indexes the event deque by position, not by sequence number:
    if sent_seq < number of cached payloads, the payloads at positions
    seq..sent_seq are replayed in position order, the non-PRESENCE_UPDATE
    payloads sent as-is and all PRESENCE_UPDATE payloads (consecutive or
    not) collected into one trailing PRESENCES_REPLACE dispatch; if
    sent_seq ≥ number of cached payloads (always the case once READY has
    advanced sent_seq without being cached), some position misses the deque
    and the session is invalidated resumably. -/
theorem c2_resume_replay_amended :
    ∀ (sentSeq : ℤ) (events : List GwPayload) (replaySeq : ℤ),
      0 ≤ replaySeq →
      resumeWindowOk sentSeq replaySeq = true →
      ((sentSeq < (events.length : ℤ) →
          resume_handler sentSeq events replaySeq =
            .replay (.done
              ((resumeSlice events replaySeq (sentSeq + 1)).filter nonPresence)
              (mkPresencesTail
                ((resumeSlice events replaySeq (sentSeq + 1)).filterMap presenceData))))
        ∧ ((events.length : ℤ) ≤ sentSeq →
            ∃ s, resume_handler sentSeq events replaySeq =
              .replay (.invalidatedResumable s))) := by
  intro sentSeq events replaySeq hpos hw
  have hwin := resumeWindowOk_iff.mp hw
  constructor
  · intro hlen
    rw [resume_handler_eq_replay events hw]
    have hall : ∀ i ∈ intRange replaySeq (sentSeq + 1),
        ∃ p, pyListGet events i = some p := by
      intro i hi
      have hmem := mem_intRange.mp hi
      have h0i : 0 ≤ i := le_trans hpos hmem.1
      have hlt : i.toNat < events.length := by omega
      obtain ⟨p, hp⟩ := listNth_isSome events i.toNat hlt
      exact ⟨p, by simp [pyListGet, h0i, hp]⟩
    rw [replayLoop_done events _ [] [] hall]
    simp [resumeSlice]
  · intro hlen
    rw [resume_handler_eq_replay events hw]
    have hnone : ∃ i ∈ intRange replaySeq (sentSeq + 1),
        pyListGet events i = none := by
      refine ⟨max replaySeq (events.length : ℤ), mem_intRange.mpr ⟨?_, ?_⟩, ?_⟩
      · exact le_max_left _ _
      · omega
      · have h0 : 0 ≤ max replaySeq (events.length : ℤ) := le_max_of_le_left hpos
        have hge : events.length ≤ (max replaySeq (events.length : ℤ)).toNat := by
          omega
        simp [pyListGet, h0, listNth_eq_none events _ hge]
    obtain ⟨s, hs⟩ := replayLoop_abort events _ [] [] hnone
    exact ⟨s, by rw [hs]⟩

/-- C2 amended witness: sent_seq = 1, two cached payloads (a MESSAGE_CREATE
    and a PRESENCE_UPDATE), RESUME with seq = 0 replays the MESSAGE_CREATE
    and batches the presence data into the PRESENCES_REPLACE tail. -/
theorem c2_resume_replay_amended_witness :
    resume_handler 1
        [⟨"MESSAGE_CREATE", 1, 5⟩, ⟨"PRESENCE_UPDATE", 2, 6⟩] 0 =
      ResumeOutcome.replay
        (ReplayResult.done [⟨"MESSAGE_CREATE", 1, 5⟩] (some [6])) := by
  have h := (c2_resume_replay_amended 1
      [⟨"MESSAGE_CREATE", 1, 5⟩, ⟨"PRESENCE_UPDATE", 2, 6⟩] 0
      (by norm_num) (by decide)).1 (by decide)
  rw [h]
  decide

/-- C4 counterexample.  The claim says snowflake_time recovers the
    generation timestamp within 1 ms.  A snowflake generated at time
    EPOCH + 4 seconds (counter 1) decodes to EPOCH + 2: the decoder reads
    back half the seconds offset, an error of 2 full seconds here (and of
    about half the age of the epoch in general). -/
theorem c4_snowflake_counterexample :
    pySnowflake (EPOCH + 4) 1 = 8193 ∧
    snowflake_time (pySnowflake (EPOCH + 4) 1) = EPOCH + 2 ∧
    EPOCH + 4 - snowflake_time (pySnowflake (EPOCH + 4) 1) = 2 := by
  refine ⟨by decide, by decide, by decide⟩

/-- C4 amended.  Snowflakes are strictly increasing in generation order
    (the counter strictly increases per call, the clock offset is
    nondecreasing and in the representable range), but snowflake_time does
    not recover the generation time: the offset is stored in whole seconds
    (not milliseconds) and the decoder keeps only 37 of the 38 offset
    characters, returning EPOCH + offset / 2. -/
theorem c4_snowflake_amended :
    (∀ E1 E2 C1 C2 : ℕ, 1 ≤ E1 → E1 ≤ E2 → E2 < 2 ^ 36 → C1 < C2 →
       snowflakeGen E1 C1 < snowflakeGen E2 C2) ∧
    (∀ E C : ℕ, E < 2 ^ 36 → C < 2 ^ 11 →
       snowflake_time (snowflakeGen E C) = EPOCH + E / 2) :=
  ⟨fun _ _ _ _ h1 h2 h3 h4 => snowflakeGen_lt h1 h2 h3 h4,
   fun _ _ h1 h2 => snowflake_time_gen h1 h2⟩

/-- C4 amended witness: a later snowflake is numerically larger, and the
    decoder halves the offset of a concrete snowflake. -/
theorem c4_snowflake_amended_witness :
    snowflakeGen 4 1 < snowflakeGen 4 2 ∧
    snowflake_time (snowflakeGen 4 1) = EPOCH + 4 / 2 :=
  ⟨c4_snowflake_amended.1 4 4 1 2 (by norm_num) (le_refl 4) (by norm_num)
      (by norm_num),
   c4_snowflake_amended.2 4 1 (by norm_num) (by norm_num)⟩

/-! ### Shard validation (src/litecord/gateway/connection.py, check_shard
    and identify_handler) -/

/-- Modelled from the spec: litecord/enums.py (the CloseCodes constants) is
    not under src/, only its importers are.  The spec's close-code table
    assigns 4011 to invalid shard / sharding required. -/
def INVALID_SHARD : ℕ := 4011

/-- check_shard after the int() conversion of the entries succeeded: a
    payload that is not a 2-list, a count below 1, or an id strictly
    greater than the count raise StopConnection with INVALID_SHARD.  The
    test is id > count, so id == count passes. -/
def check_shard (shard : List ℤ) : Option ℕ :=
  match shard with
  | [shardId, shardCount] =>
    if shardCount < 1 then some INVALID_SHARD
    else if shardId > shardCount then some INVALID_SHARD
    else none
  | _ => some INVALID_SHARD

/-- The shard handling of identify_handler: check_shard, then close with
    INVALID_SHARD when a non-bot user requests count > 1. -/
def identifyShardCheck (shard : List ℤ) (isBot : Bool) : Option ℕ :=
  match check_shard shard with
  | some c => some c
  | none =>
    match shard with
    | [_, shardCount] =>
      if shardCount > 1 ∧ isBot = false then some INVALID_SHARD else none
    | _ => none

/-- C5 counterexample.  The claim accepts a shard payload only when
    id < count; the payload [1, 1] for a non-bot user has id == count and
    should close with 4011, but the code only rejects id > count and
    accepts it. -/
theorem c5_shard_counterexample :
    identifyShardCheck [1, 1] false = none ∧ ¬ ((1 : ℤ) < 1) := by
  exact ⟨rfl, by norm_num⟩

lemma identifyShardCheck_pair (shardId shardCount : ℤ) (isBot : Bool) :
    identifyShardCheck [shardId, shardCount] isBot =
      if shardCount < 1 then some INVALID_SHARD
      else if shardId > shardCount then some INVALID_SHARD
      else if 1 < shardCount ∧ isBot = false then some INVALID_SHARD
      else none := by
  unfold identifyShardCheck check_shard
  by_cases h1 : shardCount < 1
  · simp [h1]
  · by_cases h2 : shardId > shardCount
    · simp [h1, h2]
    · simp [h1, h2]

/-- C5 amended.  A shard payload [id, count] is accepted exactly when
    count ≥ 1, id ≤ count (not id < count), and the user is a bot whenever
    count > 1; every rejected payload closes with close code 4011. -/
theorem c5_shard_amended :
    ∀ (shardId shardCount : ℤ) (isBot : Bool) (shard : List ℤ),
      (identifyShardCheck [shardId, shardCount] isBot = none ↔
        1 ≤ shardCount ∧ shardId ≤ shardCount ∧
          (1 < shardCount → isBot = true))
      ∧ (identifyShardCheck shard isBot = none ∨
         identifyShardCheck shard isBot = some 4011) := by
  intro shardId shardCount isBot shard
  constructor
  · rw [identifyShardCheck_pair]
    split_ifs with h1 h2 h3
    · constructor
      · intro h
        simp at h
      · intro hr
        exact absurd hr.1 (by omega)
    · constructor
      · intro h
        simp at h
      · intro hr
        exact absurd hr.2.1 (by omega)
    · constructor
      · intro h
        simp at h
      · intro hr
        have := hr.2.2 h3.1
        rw [this] at h3
        exact absurd h3.2 (by simp)
    · simp only [true_iff]
      refine ⟨by omega, by omega, ?_⟩
      intro hgt
      cases hb : isBot
      · exact absurd ⟨hgt, hb⟩ h3
      · rfl
  · rcases shard with _ | ⟨a, _ | ⟨b, _ | ⟨c, t⟩⟩⟩
    · right
      rfl
    · right
      rfl
    · rw [identifyShardCheck_pair]
      split_ifs
      · right
        rfl
      · right
        rfl
      · right
        rfl
      · left
        rfl
    · right
      rfl

/-- C5 amended witness: the canonical unsharded payload [0, 1] from a
    non-bot user is accepted. -/
theorem c5_shard_amended_witness :
    identifyShardCheck [0, 1] false = none :=
  (c5_shard_amended 0 1 false []).1.mpr
    ⟨by norm_num, by norm_num, by intro h; exact absurd h (by norm_num)⟩

/-! ### Message POST (src/litecord/api/channels.py, h_post_message;
    src/litecord/guild.py, GuildManager.new_message) -/

structure PostedMessage where
  id : ℕ
  authorId : ℕ
  channelId : ℕ
  content : String
  nonce : Option String
deriving DecidableEq, Repr

/-- Server-side state touched by posting: the stored message list and the
    stream of events dispatched to the channel's guild. -/
structure ApiState where
  messages : List PostedMessage
  events : List (String × ℕ)
deriving DecidableEq, Repr

inductive PostResponse where
  | errResponse (status errno : ℕ)
  | httpOnly (status : ℕ)
  | created (m : PostedMessage)
deriving DecidableEq, Repr

def postResponseStatus : PostResponse → ℕ
  | .errResponse s _ => s
  | .httpOnly s => s
  | .created _ => 200

/-- h_post_message after channel and membership checks: empty content with
    no attachment errors through _err with errno 50006 (default HTTP status
    500), content over 2000 characters returns a bare HTTP 400 response,
    anything else is stored and dispatched as MESSAGE_CREATE through
    GuildManager.new_message.  The nonce is stored on the raw message and
    compared against nothing. -/
def h_post_message (st : ApiState) (messageId authorId channelId : ℕ)
    (content : String) (nonce : Option String) (hasAttachment : Bool) :
    ApiState × PostResponse :=
  if content.length < 1 ∧ hasAttachment = false then
    (st, .errResponse 500 50006)
  else if content.length > 2000 then (st, .httpOnly 400)
  else
    ({ messages := st.messages ++ [⟨messageId, authorId, channelId, content, nonce⟩],
       events := st.events ++ [("MESSAGE_CREATE", messageId)] },
     .created ⟨messageId, authorId, channelId, content, nonce⟩)

/-- C3 counterexample.  The claim says the second POST with a repeated nonce
    returns HTTP 409 and only one MESSAGE_CREATE is dispatched.  Posting
    twice with nonce "a" from the same author: the second POST returns the
    created message (HTTP 200, not 409) and two MESSAGE_CREATE events are
    dispatched. -/
theorem c3_nonce_counterexample :
    (h_post_message
        (h_post_message ⟨[], []⟩ 1 7 9 "hi" (some "a") false).1
        2 7 9 "hi" (some "a") false).2 =
      PostResponse.created ⟨2, 7, 9, "hi", some "a"⟩
    ∧ (h_post_message
        (h_post_message ⟨[], []⟩ 1 7 9 "hi" (some "a") false).1
        2 7 9 "hi" (some "a") false).1.events =
      [("MESSAGE_CREATE", 1), ("MESSAGE_CREATE", 2)]
    ∧ postResponseStatus (.created ⟨2, 7, 9, "hi", some "a"⟩) = 200 := by
  refine ⟨by decide, by decide, rfl⟩

/-- C3 amended.  There is no duplicate suppression: the nonce is stored on
    the message but never compared, so posting the same valid content twice
    with the same nonce from the same author succeeds both times (each
    returning the created message, HTTP 200) and dispatches two
    MESSAGE_CREATE events. -/
theorem c3_nonce_amended :
    ∀ (st : ApiState) (mid1 mid2 a ch : ℕ) (content : String)
      (nonce : Option String),
      1 ≤ content.length → content.length ≤ 2000 →
      ((h_post_message st mid1 a ch content nonce false).2 =
          PostResponse.created ⟨mid1, a, ch, content, nonce⟩)
      ∧ ((h_post_message (h_post_message st mid1 a ch content nonce false).1
            mid2 a ch content nonce false).2 =
          PostResponse.created ⟨mid2, a, ch, content, nonce⟩)
      ∧ ((h_post_message (h_post_message st mid1 a ch content nonce false).1
            mid2 a ch content nonce false).1.events =
          st.events ++ [("MESSAGE_CREATE", mid1), ("MESSAGE_CREATE", mid2)]) := by
  intro st mid1 mid2 a ch content nonce h1 h2
  unfold h_post_message
  split_ifs with hA hB
  · obtain ⟨hA1, _⟩ := hA
    exfalso
    omega
  · exfalso
    omega
  · refine ⟨rfl, rfl, by simp⟩

/-- C3 amended witness: two posts of "hi" with nonce "a". -/
theorem c3_nonce_amended_witness :
    (h_post_message (h_post_message ⟨[], []⟩ 1 7 9 "hi" (some "a") false).1
        2 7 9 "hi" (some "a") false).1.events =
      [("MESSAGE_CREATE", 1), ("MESSAGE_CREATE", 2)] := by
  have h := (c3_nonce_amended ⟨[], []⟩ 1 2 7 9 "hi" (some "a")
      (by decide) (by decide)).2.2
  simpa using h

/-- C7 confirmed.  h_post_message accepts content of length 2000, rejects
    length 2001 with a bare HTTP 400, and rejects empty content without an
    attachment with error code 50006. -/
theorem c7_post_length_bounds :
    ∀ (st : ApiState) (mid a ch : ℕ) (content : String)
      (nonce : Option String) (attach : Bool),
      (content.length = 2000 →
        (h_post_message st mid a ch content nonce attach).2 =
          PostResponse.created ⟨mid, a, ch, content, nonce⟩)
      ∧ (content.length = 2001 →
          (h_post_message st mid a ch content nonce attach).2 =
            PostResponse.httpOnly 400)
      ∧ (content.length = 0 →
          (h_post_message st mid a ch content nonce false).2 =
            PostResponse.errResponse 500 50006)
      ∧ postResponseStatus (PostResponse.httpOnly 400) = 400 := by
  intro st mid a ch content nonce attach
  refine ⟨?_, ?_, ?_, rfl⟩
  · intro h
    unfold h_post_message
    split_ifs with hA hB
    · obtain ⟨hA1, _⟩ := hA
      exfalso
      omega
    · exfalso
      omega
    · rfl
  · intro h
    unfold h_post_message
    split_ifs with hA hB
    · obtain ⟨hA1, _⟩ := hA
      exfalso
      omega
    · rfl
    · exfalso
      omega
  · intro h
    unfold h_post_message
    split_ifs with hA hB
    · rfl
    · exact absurd ⟨by omega, rfl⟩ hA
    · exact absurd ⟨by omega, rfl⟩ hA

/-- C7 witness at the three boundary lengths. -/
theorem c7_post_length_bounds_witness :
    (h_post_message ⟨[], []⟩ 1 2 3 (String.mk (List.replicate 2000 'a'))
        none false).2 =
      PostResponse.created
        ⟨1, 2, 3, String.mk (List.replicate 2000 'a'), none⟩
    ∧ (h_post_message ⟨[], []⟩ 1 2 3 (String.mk (List.replicate 2001 'a'))
        none false).2 = PostResponse.httpOnly 400
    ∧ (h_post_message ⟨[], []⟩ 1 2 3 "" none false).2 =
        PostResponse.errResponse 500 50006 :=
  ⟨(c7_post_length_bounds ⟨[], []⟩ 1 2 3 _ none false).1
      (show (List.replicate 2000 'a').length = 2000 from
        List.length_replicate 2000 'a'),
   (c7_post_length_bounds ⟨[], []⟩ 1 2 3 _ none false).2.1
      (show (List.replicate 2001 'a').length = 2001 from
        List.length_replicate 2001 'a'),
   (c7_post_length_bounds ⟨[], []⟩ 1 2 3 "" none false).2.2.1 rfl⟩

/-! ### Bulk delete (src/litecord/api/channels.py, h_bulk_delete) -/

def BULK_DELETE_LIMIT : ℕ := 1209600

inductive BulkDeleteResult where
  | emptyOk
  | tooOld
  | deleted (ids : List ℕ)
deriving DecidableEq, Repr

/-- h_bulk_delete after channel lookup: an empty id list returns 204 with
    nothing deleted; otherwise every id is aged with
    current - snowflake_time(id) and any age over BULK_DELETE_LIMIT aborts
    the whole request before anything is deleted; only when all ids pass is
    the delete task over the deduplicated id set created. -/
def h_bulk_delete (current : ℤ) (ids : List ℕ) : BulkDeleteResult :=
  if ids.length < 1 then .emptyOk
  else if ids.any (fun i =>
      decide (current - (snowflake_time i : ℤ) > (BULK_DELETE_LIMIT : ℤ))) then
    .tooOld
  else .deleted ids.dedup

/-- C8: the 14-day check misfires because snowflake_time halves the seconds
    offset.  A message whose id was generated at the very instant of the
    bulk-delete request (true age 0 s, EPOCH + 2419204 being about four
    weeks past the epoch) is reported as too old and the request is
    rejected, where the claim (and the code's own BULK_DELETE_LIMIT
    comment) says the deletion should proceed. -/
theorem c8_bulk_delete_age_check :
    h_bulk_delete ((EPOCH : ℤ) + 2419204) [pySnowflake (EPOCH + 2419204) 1] =
      BulkDeleteResult.tooOld := by
  decide

/-! ### Pins (src/litecord/api/channels.py, h_add_pin) -/

/-- Modelled from the spec: TextChannel.get_pins and TextChannel.add_pin
    are not under src/, only their caller h_add_pin is.  The spec's data
    model gives a text channel a pin set of message ids, so add_pin is set
    insertion of the message id. -/
def add_pin (pins : List ℕ) (messageId : ℕ) : List ℕ :=
  if messageId ∈ pins then pins else pins ++ [messageId]

inductive PinResponse where
  | pinLimitError
  | pinned
deriving DecidableEq, Repr

/-- h_add_pin after the channel, message and channel-match checks: refuse
    when the pin count is exactly 50, otherwise insert the pin. -/
def h_add_pin (pins : List ℕ) (messageId : ℕ) : PinResponse × List ℕ :=
  if pins.length = 50 then (.pinLimitError, pins)
  else (.pinned, add_pin pins messageId)

/-- C9 confirmed.  For a channel whose pin set has at most 50 entries,
    pinning fails exactly at 50 (leaving the set unchanged) and otherwise
    inserts, so the pin set keeps at most 50 entries after every pin
    operation. -/
theorem c9_pin_invariant :
    ∀ (pins : List ℕ) (messageId : ℕ),
      pins.length ≤ 50 →
      ((pins.length = 50 →
          (h_add_pin pins messageId).1 = PinResponse.pinLimitError ∧
          (h_add_pin pins messageId).2 = pins)
        ∧ (h_add_pin pins messageId).2.length ≤ 50) := by
  intro pins mid h50
  constructor
  · intro h
    simp [h_add_pin, h]
  · by_cases h : pins.length = 50
    · simp [h_add_pin, h]
    · simp [h_add_pin, h, add_pin]
      by_cases hm : mid ∈ pins
      · simp [hm]
        omega
      · simp [hm]
        omega

/-- C9 witness: pinning into a 50-element pin set fails and pinning into an
    empty one stays within the bound. -/
theorem c9_pin_invariant_witness :
    (h_add_pin (List.range 50) 77).1 = PinResponse.pinLimitError
    ∧ (h_add_pin [] 5).2.length ≤ 50 :=
  ⟨((c9_pin_invariant (List.range 50) 77 (by simp)).1 (by simp)).1,
   (c9_pin_invariant [] 5 (by norm_num)).2⟩

/-! ### Dispatch fan-out (src/litecord/objects.py, User.dispatch and
    Guild.dispatch) -/

/-- A guild member as the dispatcher sees it: the user id and the send
    outcome of each of the user's attached connections
    (true: conn.dispatch returns, false: it raises and the exception is
    swallowed by User.dispatch). -/
structure DispatchMember where
  uid : ℕ
  conns : List Bool
deriving DecidableEq, Repr

/-- User.dispatch: return False immediately when the user has no attached
    connections; otherwise try every connection, swallowing per-connection
    failures, and return True regardless of how many sends succeeded. -/
def user_dispatch (conns : List Bool) : Bool := !conns.isEmpty

/-- Number of connections of a user whose send succeeded. -/
def successfulSends (conns : List Bool) : ℕ := (conns.filter id).length

/-- Guild.dispatch: walk the members that sit in the viewer list, in member
    order; a member whose user_dispatch returned False is unmarked from the
    viewer list, every other one counts as dispatched.  Returns the final
    viewer list, the dispatched count, and the log of (uid, connection
    outcomes) whose connections were attempted. -/
def guild_dispatch : List DispatchMember → List ℕ →
    List ℕ × ℕ × List (ℕ × List Bool)
  | [], viewers => (viewers, 0, [])
  | m :: rest, viewers =>
    if m.uid ∈ viewers then
      if user_dispatch m.conns then
        let r := guild_dispatch rest viewers
        (r.1, r.2.1 + 1, (m.uid, m.conns) :: r.2.2)
      else
        let r := guild_dispatch rest (viewers.erase m.uid)
        (r.1, r.2.1, (m.uid, m.conns) :: r.2.2)
    else guild_dispatch rest viewers

lemma erase_eq_filter_ne (l : List ℕ) (hl : l.Nodup) (a : ℕ) :
    l.erase a = l.filter (fun u => !(u == a)) := by
  induction l with
  | nil => rfl
  | cons x t ih =>
    rw [List.nodup_cons] at hl
    by_cases hx : x = a
    · subst hx
      rw [List.erase_cons_head]
      have hall : ∀ u ∈ t, (!(u == x)) = true := by
        intro u hu
        simp only [Bool.not_eq_true']
        rw [beq_eq_false_iff_ne]
        intro he
        exact hl.1 (he ▸ hu)
      rw [List.filter_cons]
      simp only [beq_self_eq_true, Bool.not_true, Bool.false_eq_true, if_false]
      exact (List.filter_eq_self.mpr hall).symm
    · rw [List.erase_cons_tail, List.filter_cons]
      · have hxa : (!(x == a)) = true := by
          simp only [Bool.not_eq_true']
          exact beq_eq_false_iff_ne.mpr hx
        rw [if_pos hxa, ih hl.2]
      · simp [hx]

lemma guild_dispatch_char :
    ∀ (members : List DispatchMember) (viewers : List ℕ),
      (members.map DispatchMember.uid).Nodup → viewers.Nodup →
      ((guild_dispatch members viewers).1 =
          viewers.filter
            (fun u => members.all (fun m => !(u == m.uid && m.conns.isEmpty)))
        ∧ (guild_dispatch members viewers).2.2 =
          (members.filter (fun m => decide (m.uid ∈ viewers))).map
            (fun m => (m.uid, m.conns))) := by
  intro members
  induction members with
  | nil =>
    intro viewers _ _
    constructor
    · simp [guild_dispatch]
    · simp [guild_dispatch]
  | cons m rest ih =>
    intro viewers hm hv
    rw [List.map_cons, List.nodup_cons] at hm
    obtain ⟨hmuid, hmrest⟩ := hm
    have hrestne : ∀ mm ∈ rest, mm.uid ≠ m.uid := by
      intro mm hmm he
      exact hmuid (he ▸ List.mem_map_of_mem DispatchMember.uid hmm)
    by_cases hmem : m.uid ∈ viewers
    · by_cases hc : m.conns = []
      · have hud : user_dispatch m.conns = false := by
          simp [user_dispatch, hc]
        have hstep1 : (guild_dispatch (m :: rest) viewers).1 =
            (guild_dispatch rest (viewers.erase m.uid)).1 := by
          simp [guild_dispatch, hmem, hud]
        have hstep2 : (guild_dispatch (m :: rest) viewers).2.2 =
            (m.uid, m.conns) ::
              (guild_dispatch rest (viewers.erase m.uid)).2.2 := by
          simp [guild_dispatch, hmem, hud]
        have hve : (viewers.erase m.uid).Nodup := hv.erase m.uid
        obtain ⟨ih1, ih2⟩ := ih (viewers.erase m.uid) hmrest hve
        constructor
        · rw [hstep1, ih1, erase_eq_filter_ne viewers hv m.uid,
            List.filter_filter]
          apply List.filter_congr
          intro u _
          rw [List.all_cons]
          simp only [hc, List.isEmpty_nil, Bool.and_true]
          cases hub : (u == m.uid) <;> simp
        · rw [hstep2, ih2]
          have hfeq : rest.filter
                (fun mm => decide (mm.uid ∈ viewers.erase m.uid)) =
              rest.filter (fun mm => decide (mm.uid ∈ viewers)) := by
            apply List.filter_congr
            intro mm hmm
            rw [decide_eq_decide]
            exact List.mem_erase_of_ne (hrestne mm hmm)
          rw [hfeq, List.filter_cons, if_pos (by simpa using hmem),
            List.map_cons]
      · have hud : user_dispatch m.conns = true := by
          simp [user_dispatch, hc]
        have hstep1 : (guild_dispatch (m :: rest) viewers).1 =
            (guild_dispatch rest viewers).1 := by
          simp [guild_dispatch, hmem, hud]
        have hstep2 : (guild_dispatch (m :: rest) viewers).2.2 =
            (m.uid, m.conns) :: (guild_dispatch rest viewers).2.2 := by
          simp [guild_dispatch, hmem, hud]
        obtain ⟨ih1, ih2⟩ := ih viewers hmrest hv
        have hce : m.conns.isEmpty = false := by
          cases hcc : m.conns with
          | nil => exact absurd hcc hc
          | cons c0 ct => rfl
        constructor
        · rw [hstep1, ih1]
          apply List.filter_congr
          intro u _
          rw [List.all_cons]
          simp [hce]
        · rw [hstep2, ih2, List.filter_cons, if_pos (by simpa using hmem),
            List.map_cons]
    · have hstep : guild_dispatch (m :: rest) viewers =
          guild_dispatch rest viewers := by
        simp [guild_dispatch, hmem]
      obtain ⟨ih1, ih2⟩ := ih viewers hmrest hv
      constructor
      · rw [hstep, ih1]
        apply List.filter_congr
        intro u hu
        rw [List.all_cons]
        have hub : (u == m.uid) = false := by
          rw [beq_eq_false_iff_ne]
          intro he
          exact hmem (he ▸ hu)
        simp [hub]
      · rw [hstep, ih2, List.filter_cons,
          if_neg (by simpa using hmem)]

/-- C6 counterexample.  The claim removes from the viewer set every user
    whose dispatch had zero successful connections.  A viewer with a single
    attached connection whose send fails has zero successful sends, yet
    User.dispatch still returns True (it only returns False when no
    connection is attached), so the user stays in the viewer set and is
    counted as dispatched. -/
theorem c6_dispatch_counterexample :
    guild_dispatch [⟨1, [false]⟩] [1] = ([1], 1, [(1, [false])])
    ∧ successfulSends [false] = 0 := by
  refine ⟨by decide, by decide⟩

/-- C6 amended.  During a guild dispatch (for distinct member ids and a
    duplicate-free viewer list): a viewer is removed from the viewer set
    exactly when its member has zero attached connections (regardless of
    how many sends succeeded), and the fan-out is never aborted by a failed
    send: the attempt log covers every member in the viewer set, in member
    order, with all of its connections, independently of any connection's
    send outcome. -/
theorem c6_dispatch_amended :
    ∀ (members : List DispatchMember) (viewers : List ℕ),
      (members.map DispatchMember.uid).Nodup → viewers.Nodup →
      ((guild_dispatch members viewers).1 =
          viewers.filter
            (fun u => members.all (fun m => !(u == m.uid && m.conns.isEmpty)))
        ∧ (guild_dispatch members viewers).2.2 =
          (members.filter (fun m => decide (m.uid ∈ viewers))).map
            (fun m => (m.uid, m.conns))) :=
  fun members viewers hm hv => guild_dispatch_char members viewers hm hv

/-- C6 amended witness: one viewer whose only connection fails and one
    whose connection succeeds: both stay viewers, both appear in the
    attempt log with all their connections. -/
theorem c6_dispatch_amended_witness :
    (guild_dispatch [⟨1, [false]⟩, ⟨2, [true]⟩] [1, 2]).1 =
        ([1, 2] : List ℕ).filter
          (fun u => ([⟨1, [false]⟩, ⟨2, [true]⟩] :
              List DispatchMember).all
            (fun m => !(u == m.uid && m.conns.isEmpty)))
    ∧ (guild_dispatch [⟨1, [false]⟩, ⟨2, [true]⟩] [1, 2]).2.2 =
        (([⟨1, [false]⟩, ⟨2, [true]⟩] : List DispatchMember).filter
          (fun m => decide (m.uid ∈ ([1, 2] : List ℕ)))).map
          (fun m => (m.uid, m.conns)) :=
  c6_dispatch_amended [⟨1, [false]⟩, ⟨2, [true]⟩] [1, 2]
    (by decide) (by decide)

/-! ### User serialization (src/litecord/utils.py, strip_user_data;
    src/litecord/objects.py, User.as_json and Message.as_json) -/

/-- A JSON value, as far as the serialized objects need. -/
inductive JVal where
  | str (v : String)
  | boolean (v : Bool)
  | null
  | arr (xs : List JVal)
  | obj (fields : List (String × JVal))

/-- A raw user record as stored in the users collection. -/
structure RawUser where
  id : ℕ
  username : String
  discriminator : String
  avatar : String
  bot : Bool
  verified : Bool
  email : Option String

def jOptStr : Option String → JVal
  | none => .null
  | some v => .str v

/-- strip_user_data: the field whitelist applied to a raw user before it is
    sent to clients.  The email key is part of the whitelist. -/
def strip_user_data (u : RawUser) : List (String × JVal) :=
  [("id", .str (toString u.id)),
   ("username", .str u.username),
   ("discriminator", .str u.discriminator),
   ("avatar", .str u.avatar),
   ("bot", .boolean u.bot),
   ("verified", .boolean u.verified),
   ("email", jOptStr u.email)]

/-- A message as Message.as_json serializes it; the author is resolved to a
    raw user record. -/
structure RawMessage where
  id : ℕ
  channelId : ℕ
  author : RawUser
  content : String
  timestamp : String
  editedTimestamp : Option String

/-- Message.as_json: the author field embeds User.as_json, which is
    strip_user_data over the author's raw record. -/
def message_as_json (m : RawMessage) : List (String × JVal) :=
  [("id", .str (toString m.id)),
   ("channel_id", .str (toString m.channelId)),
   ("author", .obj (strip_user_data m.author)),
   ("content", .str m.content),
   ("timestamp", .str m.timestamp),
   ("edited_timestamp", jOptStr m.editedTimestamp),
   ("tts", .boolean false),
   ("mention_everyone",
     .boolean (decide (("@everyone".data) <:+: m.content.data))),
   ("mentions", .arr []),
   ("mention_roles", .arr []),
   ("attachments", .arr []),
   ("embeds", .arr []),
   ("reactions", .arr []),
   ("pinned", .boolean false)]

/-- C10 confirmed.  strip_user_data keeps the email key with the user's
    email for every raw user record, and Message.as_json embeds exactly
    that stripped object as the author of every serialized message, so the
    author's email rides along with every message sent to guild
    viewers. -/
theorem c10_email_in_serialized_author :
    ∀ (m : RawMessage) (u : RawUser),
      ((strip_user_data u).lookup "email" = some (jOptStr u.email))
      ∧ ((message_as_json m).lookup "author" =
          some (.obj (strip_user_data m.author)))
      ∧ ((strip_user_data m.author).lookup "email" =
          some (jOptStr m.author.email)) := by
  intro m u
  refine ⟨rfl, rfl, rfl⟩

end Litecord
